import Mathlib

/-!
# Verification of the strudy analyzer CLI and issue-filing script

Shallow embedding of `strudy.js` (the command-line analyzer shell) and of the
issue-filing script (`src/unnamed/part_001`).  File contents are modelled as
`List Char` (the JS code decodes the bytes it reads with `Buffer.toString()`,
so for the ASCII markers at stake a byte is a character); paths are `String`s
and `path.join a b` is modelled as `a ++ "/" ++ b`.  The filesystem is an
explicit environment mapping paths to optional contents, and the effects of
the issue-filing pass are reified as a list of filesystem/git actions.

The analysis engine proper (`src/lib/study-crawl.js`, `src/lib/study-backrefs.js`,
`src/lib/generate-report.js`) is not among the sources; where a claim depends
on it, the definition is modelled from the spec and marked
`Modelled from the spec:` in its doc comment.
-/

namespace Strudy

/-! ## Basic string machinery

`expectLit pat s` matches the literal `pat` at the head of `s` and returns
the remainder; `endsWithL`/`strEndsWith` model the JS `String.endsWith`;
`hasSubstring` models matching a regex that is a literal string. -/

/-- Match a literal pattern at the head of a list, returning the remainder. -/
def expectLit : List Char → List Char → Option (List Char)
  | [], s => some s
  | _ :: _, [] => none
  | p :: ps, c :: cs => if c = p then expectLit ps cs else none

/-- Does `pat` occur at the end of `s`? (JS `String.prototype.endsWith`.) -/
def endsWithL (s pat : List Char) : Bool :=
  pat.length ≤ s.length && (expectLit pat (s.drop (s.length - pat.length))).isSome

/-- JS `s.endsWith(pat)` on strings. -/
def strEndsWith (s pat : String) : Bool := endsWithL s.data pat.data

/-- Does `pat` occur anywhere in `s`?  Models a JS `s.match(re)` test where
`re` is a literal string once the backslash escapes are removed. -/
def hasSubstring (s pat : List Char) : Bool :=
  match s with
  | [] => (expectLit pat []).isSome
  | c :: cs => (expectLit pat (c :: cs)).isSome || hasSubstring cs pat

/-! ## Content sniffing: `isStudyReport` (strudy.js, lines 52-68)

The JS function reads (up to) the first 1024 bytes of the file and tests them
against the regular expression `/"type"\s*:\s*"study"/`.  The regex is a
literal string with two `\s*` gaps, so we model it directly: `matchMarkerLen`
tries to match the marker at the head of a character list and returns the
number of characters consumed. -/

/-- The JavaScript `\s` whitespace class (ECMA-262 WhiteSpace ∪ LineTerminator). -/
def isJsWs (c : Char) : Bool :=
  c ∈ ['\t', '\n', '\u000B', '\u000C', '\r', ' ', '\u00A0', '\u1680',
       '\u2000', '\u2001', '\u2002', '\u2003', '\u2004', '\u2005', '\u2006',
       '\u2007', '\u2008', '\u2009', '\u200A', '\u2028', '\u2029', '\u202F',
       '\u205F', '\u3000', '\uFEFF']

/-- Length of the run of JS whitespace at the head of the list (greedy `\s*`). -/
def wsRunLen : List Char → Nat
  | [] => 0
  | c :: cs => if isJsWs c then wsRunLen cs + 1 else 0

/-- Try to match `/"type"\s*:\s*"study"/` at the head of `s`; on success
return the number of characters the match consumed. -/
def matchMarkerLen (s : List Char) : Option Nat :=
  match expectLit ("\"type\"".toList) s with
  | none => none
  | some s1 =>
    let w1 := wsRunLen s1
    match expectLit [':'] (s1.drop w1) with
    | none => none
    | some s3 =>
      let w2 := wsRunLen s3
      match expectLit ("\"study\"".toList) (s3.drop w2) with
      | none => none
      | some _ => some (6 + w1 + 1 + w2 + 7)

/-- Does the marker regex match anywhere in `s`? (JS `str.match(...)`). -/
def hasMarker : List Char → Bool
  | [] => false
  | c :: cs => (matchMarkerLen (c :: cs)).isSome || hasMarker cs

/-- `isStudyReport` (strudy.js): sniff the first 1024 bytes of the file
content for the `"type": "study"` discriminator. -/
def isStudyReport (content : List Char) : Bool :=
  hasMarker (content.take 1024)

/-! ## The CLI shell of strudy.js (`program.action`, lines 168-271)

The commander option object, the filesystem environment, option validation,
report-path resolution and the choice between loading a study report and
running `studyCrawl`.  `studyCrawl` (src/lib/study-crawl.js) and
`requireFromWorkingDirectory` are collaborators outside the sources, so the
`action` model is parametric in them (`crawl`, `parse`); the claims proved
below hold for every instantiation. -/

/-- The options commander hands to `program.action` in strudy.js.  Options
declared with a value are `Option String` (absent = `undefined`); boolean
flags are `Bool`. -/
structure Options where
  format : Option String
  diff : Option String
  spec : Option (List String)
  dep : Bool
  onlynew : Bool
  perissue : Bool
  tr : Option String
deriving DecidableEq

/-- JS truthiness of a string-valued option (`undefined` and `""` are falsy). -/
def truthyS : Option String → Bool
  | none => false
  | some s => !(s == "")

/-- The filesystem as the CLI sees it: a path maps to its content when the
file exists and is readable (`fs.access` with `R_OK`, strudy.js lines 41-49),
and to `none` otherwise. -/
structure Env where
  files : String → Option (List Char)

/-- The `exists` helper of strudy.js. -/
def Env.existsFile (e : Env) (p : String) : Bool := (e.files p).isSome

/-- Content of a readable file (only ever used after an `existsFile` check). -/
def Env.readFile (e : Env) (p : String) : List Char := (e.files p).getD []

/-- The option-validation prologue of `program.action` (strudy.js lines
169-188): the first violated rule prints an error and exits with code 2. -/
def validate (o : Options) : Option String :=
  if truthyS o.format && !((["json", "markdown", "html"] : List String).contains (o.format.getD "")) then
    some ("Unsupported --format option " ++ o.format.getD "")
  else if truthyS o.diff && (truthyS o.format && !(o.format.getD "" == "markdown")) then
    some "Diff reports are always in markdown."
  else if truthyS o.diff && o.perissue then
    some "The --diff and --perissue options cannot both be set."
  else if o.perissue && !((["markdown", "html"] : List String).contains (o.format.getD "")) then
    some "The --format option must be markdown or html when --perissue is set."
  else if o.dep && truthyS o.diff then
    some "The --dep and --diff options cannot both be set."
  else none

/-- Report-location resolution (strudy.js lines 189-199): a path ending in
`.json` is used as-is; otherwise, when an `ed` subfolder exists it becomes
the base (and a `tr` subfolder, when present and `--tr` was not given,
becomes the TR report), and `index.json` is joined onto the base. -/
def resolveReports (env : Env) (report : String) (trOpt : Option String) :
    String × Option String :=
  if strEndsWith report ".json" then (report, trOpt)
  else
    let pair :=
      if env.existsFile (report ++ "/ed") then
        (report ++ "/ed",
         if !truthyS trOpt && env.existsFile (report ++ "/tr") then
           some (report ++ "/tr")
         else trOpt)
      else (report, trOpt)
    (pair.1 ++ "/index.json", pair.2)

/-- Which branch produced the study held by a run. -/
inductive StudySource where
  | loaded
  | crawled
deriving DecidableEq

/-- Outcome of `program.action`: exit(2) at the validation prologue, exit(2)
at the report-existence checks, or a study obtained for the reporting phase. -/
inductive Outcome (σ : Type) where
  | configError (msg : String)
  | loadError (msg : String)
  | success (study : σ) (source : StudySource)
deriving DecidableEq

/-- Study selection (strudy.js lines 214-229): sniff the report content; when
the discriminator is present, load the file itself
(`requireFromWorkingDirectory`, abstracted as `parse`; a falsy module value
is `none`), and only when no study was obtained run `studyCrawl`
(abstracted as `crawlStudy`). -/
def selectStudy {σ : Type} (parse : List Char → Option σ) (crawlStudy : Unit → σ)
    (content : List Char) : σ × StudySource :=
  match (if isStudyReport content then parse content else none) with
  | some s => (s, StudySource.loaded)
  | none => (crawlStudy (), StudySource.crawled)

/-- The `program.action` callback of strudy.js (lines 168-229): validation,
path resolution, existence checks, then study selection.  `crawl` abstracts
`studyCrawl(edReport, { include, trResults })`; `parse` abstracts
`requireFromWorkingDirectory`.  The rendering of the obtained study (lines
231-270) consumes `study` and is modelled separately (`diffStudies`). -/
def action {σ : Type} (crawl : String → Option (List String) → Option String → σ)
    (parse : List Char → Option σ) (env : Env) (report : String) (o : Options) :
    Outcome σ :=
  match validate o with
  | some msg => Outcome.configError msg
  | none =>
    let rr := resolveReports env report o.tr
    let edReport := rr.1
    if !env.existsFile edReport then
      Outcome.loadError ("Could not find/access crawl/study report: " ++ report)
    else
      let trRes : Except String (Option String) :=
        match rr.2 with
        | none => Except.ok none
        | some tr =>
          if tr == "" then Except.ok none
          else
            let tr2 := if strEndsWith tr ".json" then tr else tr ++ "/index.json"
            if env.existsFile tr2 then Except.ok (some tr2)
            else Except.error ("Could not find/access TR crawl report: " ++ o.tr.getD "")
      match trRes with
      | Except.error msg => Outcome.loadError msg
      | Except.ok trReport =>
        let p := selectStudy parse (fun _ => crawl edReport o.spec trReport)
          (env.readFile edReport)
        Outcome.success p.1 p.2

/-! ## The issue-filing script (src/unnamed/part_001)

`studyBackrefs` (src/lib/study-backrefs.js) is a collaborator outside the
sources; its per-spec result shape is modelled from the spec.  The script's
effects on the filesystem and the git repository are reified as a list of
`GitEffect`s. -/

/-- One per-spec entry of a study result.  Modelled from the spec: the result
of `studyBackrefs` (src/lib/study-backrefs.js is not among the sources)
carries, per crawled specification, its `shortname`, `title`, `repo` and
`crawled` URL, and the anomaly collections `brokenLinks` / `staleLinks` /
`duplicateDefinitions` as arrays of literal target URL strings (spec §3,
§6). -/
structure SpecStudy where
  shortname : String
  title : String
  repo : String
  crawled : String
  brokenLinks : List String
  staleLinks : List String
  duplicateDefinitions : List String
deriving DecidableEq

/-- The broken-link exclusion filter (part_001 line 64): a target URL is
dropped when it matches `/w3\.org\/TR\//`, i.e. contains the literal
substring `w3.org/TR/`. -/
def matchesTrFilter (u : String) : Bool := hasSubstring u.toList ("w3.org/TR/".toList)

/-- The filtered broken-links list of a spec entry (part_001 line 64):
`specResult.brokenLinks?.filter(u => !u.match(/w3\.org\/TR\//)) || []`. -/
def brokenLinksOf (r : SpecStudy) : List String :=
  r.brokenLinks.filter (fun u => !(matchesTrFilter u))

/-- JS `Array.prototype.join("\n")`. -/
def joinLines : List String → String
  | [] => ""
  | [s] => s
  | s :: t :: rest => s ++ "\n" ++ joinLines (t :: rest)

/-- The issue body template (part_001 lines 93-101). -/
def issueReport (r : SpecStudy) (brokenLinks : List String) : String :=
  "\nRepo: " ++ r.repo ++ "\nTracked: N/A\nIssue title: Broken references in "
    ++ r.title ++ "\n---\nWhile crawling [" ++ r.title ++ "](" ++ r.crawled
    ++ "), the following links to other specifications were detected as pointing to non-existing anchors, which should be fixed:\n"
    ++ joinLines (brokenLinks.map (fun link => "* [ ] " ++ link))
    ++ "\n\nThis issue was detected and reported semi-automatically by [strudy](https://github.com/w3c/strudy/) based on data collected in [webref](https://github.com/w3c/webref/)."

/-- Filesystem/git actions the issue filer performs, in order. -/
inductive GitEffect where
  | writeFile (path : String) (content : String)
  | checkoutNewBranch (branch : String)
  | gitAdd (path : String)
  | gitCommit (msg : String)
  | checkout (branch : String)
deriving DecidableEq

/-- Filesystem as the issue filer sees it: `stat p = some isFile` when `p`
exists (`fs.stat` succeeds), `none` when `fs.stat` throws. -/
structure FileEnv where
  stat : String → Option Bool

/-- Processing of a single spec entry (part_001 lines 62-107), reified as the
list of filesystem/git effects it performs.  When the filtered broken-links
list is empty nothing happens; when the issue file already exists (whether or
not it is a regular file) the script logs and returns; the pull-request check
(line 81) is short-circuited in the source (`{data: []} || ...`) and never
bails; otherwise the issue file is written, committed on a fresh branch, and
the original branch is checked out again. -/
def processSpec (env : FileEnv) (currentBranch : String) (r : SpecStudy) :
    List GitEffect :=
  let brokenLinks := brokenLinksOf r
  if brokenLinks.length ≠ 0 then
    let issueMoniker := r.shortname ++ "-brokenlinks"
    let issueFilename := "issues/" ++ issueMoniker ++ ".md"
    match env.stat issueFilename with
    | some _ => []
    | none =>
      [GitEffect.writeFile issueFilename (issueReport r brokenLinks),
       GitEffect.checkoutNewBranch issueMoniker,
       GitEffect.gitAdd issueFilename,
       GitEffect.gitCommit ("File report on broken links found in " ++ r.title),
       GitEffect.checkout currentBranch]
  else []

/-- The issue-filing pass (part_001 lines 57-109):
`Object.keys(results).slice(0, 2).forEach(...)` visits at most the first two
entries of the study result, in key order.  The study result is an ordered
association list (JS object iteration order is insertion order here). -/
def fileIssues (env : FileEnv) (currentBranch : String)
    (results : List (String × SpecStudy)) : List GitEffect :=
  ((results.take 2).map (fun kv => processSpec env currentBranch kv.2)).flatten

/-- Crawl-result path resolution in the issue filer (part_001 lines 50-56):
only a path already ending in `index.json` is used as-is; any other path has
`index.json` joined onto it. -/
def resolveCrawlPath (p : String) : String :=
  if strEndsWith p "index.json" then p else p ++ "/index.json"

/-! ## The diff operation (spec §4.5)

Modelled from the spec: the diff mode of `generateReport`
(src/lib/generate-report.js is not among the sources).  Per shared shortname,
`added`/`removed` are the set differences of the anomaly records (equality by
literal target string, order-free); specifications present on only one side
are wholly added or wholly removed; with `onlyNew` set, `removed` lists are
suppressed from the output. -/

/-- The anomaly collections of one spec entry. -/
structure AnomalySets where
  brokenLinks : List String
  staleLinks : List String
  duplicateDefinitions : List String
deriving DecidableEq

/-- The anomaly collections carried by a spec study entry. -/
def SpecStudy.anomalies (r : SpecStudy) : AnomalySets :=
  ⟨r.brokenLinks, r.staleLinks, r.duplicateDefinitions⟩

/-- No anomalies. -/
def emptyAnomalies : AnomalySets := ⟨[], [], []⟩

/-- One per-spec entry of a diff result (spec §3, DiffResult). -/
structure DiffEntry where
  added : AnomalySets
  removed : AnomalySets
deriving DecidableEq

/-- Anomalies of `b` that are not present in `a` (set difference by literal
target string). -/
def anomaliesDiff (a b : AnomalySets) : AnomalySets :=
  ⟨b.brokenLinks.filter (fun u => !(a.brokenLinks.contains u)),
   b.staleLinks.filter (fun u => !(a.staleLinks.contains u)),
   b.duplicateDefinitions.filter (fun u => !(a.duplicateDefinitions.contains u))⟩

/-- Modelled from the spec: `Diff(reference, candidate, onlyNew)` (spec §4.5),
the operation `strudy --diff` requests from `generateReport` with
`onlyNew: options.onlynew` (strudy.js lines 231-240). -/
def diffStudies (refS candS : List (String × SpecStudy)) (onlyNew : Bool) :
    List (String × DiffEntry) :=
  let lookup := fun (l : List (String × SpecStudy)) (k : String) =>
    (l.find? (fun kv => kv.1 == k)).map Prod.snd
  let candPart := candS.map (fun kv =>
    let refA := ((lookup refS kv.1).map SpecStudy.anomalies).getD emptyAnomalies
    (kv.1, ({ added := anomaliesDiff refA kv.2.anomalies,
              removed := if onlyNew then emptyAnomalies
                         else anomaliesDiff kv.2.anomalies refA } : DiffEntry)))
  let removedPart := (refS.filter (fun kv => (lookup candS kv.1).isNone)).map (fun kv =>
    (kv.1, ({ added := emptyAnomalies,
              removed := if onlyNew then emptyAnomalies else kv.2.anomalies } : DiffEntry)))
  candPart ++ removedPart

/-! ## Lemmas about the marker matcher -/


theorem expectLit_some_iff {pat s r : List Char} :
    expectLit pat s = some r ↔ s = pat ++ r := by
  induction pat generalizing s with
  | nil => simp [expectLit]
  | cons p ps ih =>
    cases s with
    | nil => simp [expectLit]
    | cons c cs =>
      simp only [expectLit]
      by_cases h : c = p
      · simp [h, ih]
      · simp [h]

theorem take_wsRunLen_ws : ∀ (s : List Char), ∀ c ∈ s.take (wsRunLen s), isJsWs c = true := by
  intro s
  induction s with
  | nil => simp
  | cons a t ih =>
    by_cases h : isJsWs a
    · simp only [wsRunLen, h, if_pos, List.take_succ_cons]
      intro c hc
      rcases List.mem_cons.mp hc with hc | hc
      · simpa [hc] using h
      · exact ih c hc
    · simp [wsRunLen, h]

theorem wsRunLen_append {w : List Char} (hw : ∀ c ∈ w, isJsWs c = true)
    {d : Char} (hd : isJsWs d = false) (t : List Char) :
    wsRunLen (w ++ d :: t) = w.length := by
  induction w with
  | nil => simp [wsRunLen, hd]
  | cons a u ih =>
    have ha : isJsWs a = true := hw a (by simp)
    simp [wsRunLen, ha, ih (fun c hc => hw c (by simp [hc]))]

theorem matchMarkerLen_some_iff {s : List Char} {len : Nat} :
    matchMarkerLen s = some len ↔
      ∃ w1 w2 rest : List Char,
        (∀ c ∈ w1, isJsWs c = true) ∧ (∀ c ∈ w2, isJsWs c = true) ∧
        s = "\"type\"".toList ++ w1 ++ [':'] ++ w2 ++ "\"study\"".toList ++ rest ∧
        len = 6 + w1.length + 1 + w2.length + 7 := by
  constructor
  · intro h
    unfold matchMarkerLen at h
    cases h1 : expectLit ("\"type\"".toList) s with
    | none => rw [h1] at h; exact absurd h (by simp)
    | some s1 =>
      rw [h1] at h
      simp only at h
      cases h2 : expectLit [':'] (s1.drop (wsRunLen s1)) with
      | none => rw [h2] at h; exact absurd h (by simp)
      | some s3 =>
        rw [h2] at h
        simp only at h
        cases h3 : expectLit ("\"study\"".toList) (s3.drop (wsRunLen s3)) with
        | none => rw [h3] at h; exact absurd h (by simp)
        | some s5 =>
          rw [h3] at h
          simp only [Option.some.injEq] at h
          have hs : s = "\"type\"".toList ++ s1 := expectLit_some_iff.mp h1
          have hs1 : s1.drop (wsRunLen s1) = ':' :: s3 := by
            simpa using expectLit_some_iff.mp h2
          have hs3 : s3.drop (wsRunLen s3) = "\"study\"".toList ++ s5 := expectLit_some_iff.mp h3
          have hdec1 : s1 = s1.take (wsRunLen s1) ++ (':' :: s3) := by
            rw [← hs1]; exact (List.take_append_drop _ _).symm
          have hdec3 : s3 = s3.take (wsRunLen s3) ++ ("\"study\"".toList ++ s5) := by
            rw [← hs3]; exact (List.take_append_drop _ _).symm
          refine ⟨s1.take (wsRunLen s1), s3.take (wsRunLen s3), s5,
            take_wsRunLen_ws s1, take_wsRunLen_ws s3, ?_, ?_⟩
          · calc s = "\"type\"".toList ++ s1 := hs
              _ = "\"type\"".toList ++ (s1.take (wsRunLen s1) ++ (':' :: s3)) := by
                  conv_lhs => rw [hdec1]
              _ = "\"type\"".toList ++ (s1.take (wsRunLen s1) ++
                    (':' :: (s3.take (wsRunLen s3) ++ ("\"study\"".toList ++ s5)))) := by
                  conv_lhs => rw [hdec3]
              _ = "\"type\"".toList ++ s1.take (wsRunLen s1) ++ [':'] ++
                    s3.take (wsRunLen s3) ++ "\"study\"".toList ++ s5 := by
                  simp [List.append_assoc]
          · have hl1 : (s1.take (wsRunLen s1)).length = wsRunLen s1 := by
              have : wsRunLen s1 ≤ s1.length := by
                have := congrArg List.length hs1
                simp [List.length_drop] at this
                omega
              simp [List.length_take, this]
            have hl3 : (s3.take (wsRunLen s3)).length = wsRunLen s3 := by
              have : wsRunLen s3 ≤ s3.length := by
                have := congrArg List.length hs3
                simp [List.length_drop] at this
                omega
              simp [List.length_take, this]
            omega
  · rintro ⟨w1, w2, rest, hw1, hw2, hs, hlen⟩
    have hcolon : isJsWs ':' = false := by decide
    have hquote : isJsWs '"' = false := by decide
    have e1 : expectLit ("\"type\"".toList) s
        = some (w1 ++ ':' :: (w2 ++ "\"study\"".toList ++ rest)) := by
      apply expectLit_some_iff.mpr
      rw [hs]; simp [List.append_assoc, List.singleton_append]
    have hws1 : wsRunLen (w1 ++ ':' :: (w2 ++ "\"study\"".toList ++ rest)) = w1.length :=
      wsRunLen_append hw1 hcolon _
    have e2 : expectLit [':']
        ((w1 ++ ':' :: (w2 ++ "\"study\"".toList ++ rest)).drop w1.length)
        = some (w2 ++ "\"study\"".toList ++ rest) := by
      apply expectLit_some_iff.mpr
      rw [List.drop_left]; rfl
    have hstudy : "\"study\"".toList ++ rest = '"' :: ("study\"".toList ++ rest) := by
      simp
    have hws2 : wsRunLen (w2 ++ "\"study\"".toList ++ rest) = w2.length := by
      rw [List.append_assoc, hstudy]
      exact wsRunLen_append hw2 hquote _
    have e3 : expectLit ("\"study\"".toList)
        ((w2 ++ "\"study\"".toList ++ rest).drop w2.length) = some rest := by
      apply expectLit_some_iff.mpr
      rw [List.append_assoc, List.drop_left]
    unfold matchMarkerLen
    rw [e1]
    simp only [hws1, e2, hws2, e3]
    simp [hlen]

theorem matchMarkerLen_nil : matchMarkerLen [] = none := by decide

theorem matchMarkerLen_of_take {s : List Char} {m len : Nat}
    (h : matchMarkerLen (s.take m) = some len) : matchMarkerLen s = some len := by
  rcases matchMarkerLen_some_iff.mp h with ⟨w1, w2, rest, hw1, hw2, hdec, hlen⟩
  apply matchMarkerLen_some_iff.mpr
  refine ⟨w1, w2, rest ++ s.drop m, hw1, hw2, ?_, hlen⟩
  conv_lhs => rw [← List.take_append_drop m s]
  rw [hdec]
  simp [List.append_assoc]

theorem matchMarkerLen_take {s : List Char} {m len : Nat}
    (h : matchMarkerLen s = some len) (hm : len ≤ m) :
    matchMarkerLen (s.take m) = some len := by
  rcases matchMarkerLen_some_iff.mp h with ⟨w1, w2, rest, hw1, hw2, hdec, hlen⟩
  apply matchMarkerLen_some_iff.mpr
  refine ⟨w1, w2, rest.take (m - len), hw1, hw2, ?_, hlen⟩
  have hL : ("\"type\"".toList ++ w1 ++ [':'] ++ w2 ++ "\"study\"".toList).length = len := by
    have h6 : ("\"type\"".toList).length = 6 := by decide
    have h7 : ("\"study\"".toList).length = 7 := by decide
    simp [List.length_append, h6, h7]
    omega
  rw [hdec, List.take_append_eq_append_take, hL,
    List.take_of_length_le (le_of_eq_of_le hL hm)]

theorem hasMarker_iff_exists {s : List Char} :
    hasMarker s = true ↔ ∃ i, (matchMarkerLen (s.drop i)).isSome = true := by
  induction s with
  | nil =>
    simp [hasMarker, matchMarkerLen_nil]
  | cons c cs ih =>
    simp only [hasMarker, Bool.or_eq_true]
    constructor
    · rintro (h | h)
      · exact ⟨0, by simpa using h⟩
      · rcases ih.mp h with ⟨i, hi⟩
        exact ⟨i + 1, by simpa using hi⟩
    · rintro ⟨i, hi⟩
      cases i with
      | zero => exact Or.inl (by simpa using hi)
      | succ j => exact Or.inr (ih.mpr ⟨j, by simpa using hi⟩)

/-! ## Claim C8: the discriminator sniff reads only the first 1024 bytes -/

/-- C8: the study-report discriminator detection inspects only the first 1024
bytes of the input: a file with a marker match lying entirely within the
first 1024 characters is classified as a study report, and a file all of
whose marker matches start at or past position 1024 is not (and is therefore
re-analyzed as a raw crawl report, see `selectStudy`). -/
theorem sniff_first_1024 (c : List Char) :
    ((∃ i len, matchMarkerLen (c.drop i) = some len ∧ i + len ≤ 1024) →
      isStudyReport c = true)
    ∧ ((∀ i len, matchMarkerLen (c.drop i) = some len → 1024 ≤ i) →
      isStudyReport c = false) := by
  constructor
  · rintro ⟨i, len, hmatch, hle⟩
    unfold isStudyReport
    apply hasMarker_iff_exists.mpr
    refine ⟨i, ?_⟩
    rw [List.drop_take, matchMarkerLen_take hmatch (by omega)]
    rfl
  · intro h
    cases hb : isStudyReport c with
    | false => rfl
    | true =>
      exfalso
      unfold isStudyReport at hb
      rcases hasMarker_iff_exists.mp hb with ⟨i, hi⟩
      rw [List.drop_take] at hi
      rcases Option.isSome_iff_exists.mp hi with ⟨len, hlen⟩
      have hfull := matchMarkerLen_of_take hlen
      have hge := h i len hfull
      have hlt : i < 1024 := by
        by_contra hge2
        push_neg at hge2
        have hz : 1024 - i = 0 := by omega
        rw [hz, List.take_zero, matchMarkerLen_nil] at hlen
        exact absurd hlen (by simp)
      omega

/-- Witness for `sniff_first_1024`: a file whose marker starts at position 0
is a study report; a file with no marker at all is not. -/
theorem sniff_first_1024_witness :
    isStudyReport ("\"type\": \"study\"".toList) = true
    ∧ isStudyReport ("x".toList) = false :=
  ⟨(sniff_first_1024 _).1 ⟨0, 15, by decide, by decide⟩,
   (sniff_first_1024 _).2 (by
     intro i len h
     exfalso
     match i with
     | 0 =>
       rw [List.drop_zero] at h
       have hx : matchMarkerLen ("x".toList) = none := by decide
       rw [hx] at h
       exact absurd h (by simp)
     | j + 1 =>
       have hd : ("x".toList).drop (j + 1) = [] := by
         apply List.drop_eq_nil_of_le
         simp
       rw [hd, matchMarkerLen_nil] at h
       exact absurd h (by simp))⟩

/-! ## Claim C1: the discriminator decides loading vs. re-analysis -/

/-- C1: when the input report carries the `"type": "study"` discriminator
(within the sniffed window) and the loaded module is truthy, the program uses
the loaded file as the study and `studyCrawl` is not invoked (the selection
does not depend on the crawl function at all); when the discriminator is
absent, the program runs the crawl analysis to produce a fresh study. -/
theorem discriminator_selects_study {σ : Type} (parse : List Char → Option σ)
    (crawlStudy : Unit → σ) (content : List Char) :
    (∀ s, isStudyReport content = true → parse content = some s →
      selectStudy parse crawlStudy content = (s, StudySource.loaded))
    ∧ (∀ (crawlStudy2 : Unit → σ) s, isStudyReport content = true →
      parse content = some s →
      selectStudy parse crawlStudy content = selectStudy parse crawlStudy2 content)
    ∧ (isStudyReport content = false →
      selectStudy parse crawlStudy content = (crawlStudy (), StudySource.crawled)) := by
  refine ⟨?_, ?_, ?_⟩
  · intro s hd hp
    unfold selectStudy
    rw [hd, if_pos rfl, hp]
  · intro crawlStudy2 s hd hp
    unfold selectStudy
    rw [hd, if_pos rfl, hp]
  · intro hd
    unfold selectStudy
    rw [hd]
    simp

/-- Witness for `discriminator_selects_study`: a marker-bearing file is
loaded as-is, a marker-free file is crawled. -/
theorem discriminator_selects_study_witness :
    selectStudy (fun _ => some (5 : Nat)) (fun _ => 9) ("\"type\": \"study\"".toList)
      = (5, StudySource.loaded)
    ∧ selectStudy (fun _ => some (5 : Nat)) (fun _ => 9) ("no marker here".toList)
      = (9, StudySource.crawled) :=
  ⟨(discriminator_selects_study _ _ _).1 5 (by decide) rfl,
   (discriminator_selects_study _ _ _).2.2 (by decide)⟩

/-! ## Claim C2: --dep and --diff are mutually exclusive -/

/-- C2: whenever both the diff operation and the dependency-report operation
are requested in the same invocation, `program.action` terminates in the
option-validation prologue with a configuration error (exit code 2), before
any file is touched and before any analysis runs; no study result is
produced. -/
theorem dep_diff_config_error {σ : Type}
    (crawl : String → Option (List String) → Option String → σ)
    (parse : List Char → Option σ) (env : Env) (report : String) (o : Options)
    (hdep : o.dep = true) (hdiff : truthyS o.diff = true) :
    ∃ msg, action crawl parse env report o = Outcome.configError msg := by
  have hv : ∃ msg, validate o = some msg := by
    unfold validate
    split
    · exact ⟨_, rfl⟩
    · split
      · exact ⟨_, rfl⟩
      · split
        · exact ⟨_, rfl⟩
        · split
          · exact ⟨_, rfl⟩
          · split
            · exact ⟨_, rfl⟩
            · next hcond =>
              exfalso
              rw [hdep, hdiff] at hcond
              simp at hcond
  rcases hv with ⟨msg, hmsg⟩
  refine ⟨msg, ?_⟩
  unfold action
  rw [hmsg]

/-- Witness for `dep_diff_config_error`: a concrete invocation with both
`--dep` and `--diff` set ends in a configuration error. -/
theorem dep_diff_config_error_witness :
    ∃ msg, action (fun _ _ _ => (0 : Nat)) (fun _ => none) ⟨fun _ => none⟩ "r"
      ⟨none, some "ref.json", none, true, false, false, none⟩
      = Outcome.configError msg :=
  dep_diff_config_error _ _ _ _ _ rfl (by decide)

/-! ## Claim C5: an unreachable report is a single terminal load error -/

/-- C5: when the resolved crawl/study report path is not readable, the run
can never reach the analysis phase (no study outcome, for any crawl or parse
function), and — provided the option prologue passed — it terminates with
exactly the one load error message, before any index building or analysis;
there is no retry path in `action`. -/
theorem missing_report_load_error {σ : Type}
    (crawl : String → Option (List String) → Option String → σ)
    (parse : List Char → Option σ) (env : Env) (report : String) (o : Options)
    (hmiss : env.existsFile (resolveReports env report o.tr).1 = false) :
    (∀ (s : σ) (src : StudySource),
      action crawl parse env report o ≠ Outcome.success s src)
    ∧ (validate o = none →
      action crawl parse env report o
        = Outcome.loadError ("Could not find/access crawl/study report: " ++ report)) := by
  constructor
  · intro s src
    unfold action
    cases hv : validate o with
    | some m => simp
    | none => simp [hmiss]
  · intro hv
    unfold action
    rw [hv]
    simp [hmiss]

/-- Witness for `missing_report_load_error`: on an empty filesystem a
concrete invocation fails with the load error for its report path. -/
theorem missing_report_load_error_witness :
    action (fun _ _ _ => (0 : Nat)) (fun _ => none) ⟨fun _ => none⟩ "r.json"
      ⟨none, none, none, false, false, false, none⟩
      = Outcome.loadError "Could not find/access crawl/study report: r.json" :=
  (missing_report_load_error _ _ _ _ _ (by decide)).2 (by decide)

/-! ## Claim C3: report-location resolution (corrected)

In strudy.js a path ending in `.json` is indeed used as-is and a directory
path is resolved to an index file inside it.  The issue filer, however, only
keeps a path as-is when it already ends in `index.json`: a path pointing
directly at a JSON report under any other name has `index.json` appended to
it, so "a path pointing directly at the JSON report is used as-is" fails for
that loader. -/

/-- C3 counterexample: the issue filer does not accept a direct path to a
JSON report unless it is named `index.json` — `report.json` is mangled into
`report.json/index.json`. -/
theorem loader_direct_json_path_cex :
    resolveCrawlPath "report.json" ≠ "report.json" := by decide

/-- C3 (amended): in the main CLI a path ending in `.json` is used as-is and
any other path is resolved to an `index.json` file inside the directory
(inside its `ed` subfolder when one exists); in the issue filer only a path
already ending in `index.json` is used as-is, and any other path — even one
pointing directly at a JSON report under another name — has `index.json`
appended. -/
theorem loader_path_resolution (env : Env) (report : String)
    (trOpt : Option String) (p : String) :
    (strEndsWith report ".json" = true → (resolveReports env report trOpt).1 = report)
    ∧ (strEndsWith report ".json" = false →
      (resolveReports env report trOpt).1
        = (if env.existsFile (report ++ "/ed") then report ++ "/ed" else report)
          ++ "/index.json")
    ∧ (strEndsWith p "index.json" = true → resolveCrawlPath p = p)
    ∧ (strEndsWith p "index.json" = false → resolveCrawlPath p = p ++ "/index.json") := by
  refine ⟨?_, ?_, ?_, ?_⟩
  · intro h
    unfold resolveReports
    rw [h, if_pos rfl]
  · intro h
    unfold resolveReports
    rw [h]
    simp only [Bool.false_eq_true, if_false]
    split <;> simp
  · intro h
    unfold resolveCrawlPath
    rw [h, if_pos rfl]
  · intro h
    unfold resolveCrawlPath
    rw [h]
    simp

/-- Witness for `loader_path_resolution` at concrete paths: a `.json` path is
kept by the CLI, a folder path gets `index.json` appended, and the issue
filer keeps `index.json` paths while appending to every other path. -/
theorem loader_path_resolution_witness :
    (resolveReports ⟨fun _ => none⟩ "a.json" none).1 = "a.json"
    ∧ (resolveReports ⟨fun _ => none⟩ "crawl" none).1 = "crawl/index.json"
    ∧ resolveCrawlPath "crawl/index.json" = "crawl/index.json"
    ∧ resolveCrawlPath "crawl2" = "crawl2/index.json" := by
  refine ⟨(loader_path_resolution _ _ _ "").1 (by decide), ?_,
    (loader_path_resolution ⟨fun _ => none⟩ "" none _).2.2.1 (by decide),
    (loader_path_resolution ⟨fun _ => none⟩ "" none _).2.2.2 (by decide)⟩
  have h := (loader_path_resolution ⟨fun _ => none⟩ "crawl" none "").2.1 (by decide)
  rw [h]
  decide

/-! ## Claim C4: the w3.org/TR/ exclusion filter -/

/-- C4: a target URL matching the hard-coded exclusion pattern (it contains
`w3.org/TR/`) never appears in the reported broken-links list — the filter
looks only at the URL, never at whether the anchor resolves, so the exclusion
holds for every spec entry whatever its `brokenLinks` contents. -/
theorem tr_pattern_excluded (r : SpecStudy) (u : String)
    (h : matchesTrFilter u = true) : u ∉ brokenLinksOf r := by
  unfold brokenLinksOf
  intro hmem
  rcases List.mem_filter.mp hmem with ⟨_, hcond⟩
  rw [h] at hcond
  exact absurd hcond (by simp)

/-- Witness for `tr_pattern_excluded`: a concrete `/TR/` link listed among a
spec's broken links is dropped by the filter. -/
theorem tr_pattern_excluded_witness :
    matchesTrFilter "https://www.w3.org/TR/css-color-4/#typedef-color" = true
    ∧ "https://www.w3.org/TR/css-color-4/#typedef-color"
      ∉ brokenLinksOf ⟨"css-color-4", "CSS Color 4", "https://github.com/w3c/csswg-drafts",
          "https://drafts.csswg.org/css-color-4/",
          ["https://www.w3.org/TR/css-color-4/#typedef-color"], [], []⟩ :=
  ⟨by decide, tr_pattern_excluded _ _ (by decide)⟩

/-! ## Claim C6: onlyNew suppresses removed lists -/

/-- C6: for every pair of study results diffed with `onlyNew` set, no entry
of the resulting diff carries a non-empty `removed` collection — removed
anomalies are suppressed for shared specs and for specs present only in the
reference alike. -/
theorem only_new_suppresses_removed (refS candS : List (String × SpecStudy))
    (e : String × DiffEntry) (he : e ∈ diffStudies refS candS true) :
    e.2.removed = emptyAnomalies := by
  unfold diffStudies at he
  simp only [List.mem_append, List.mem_map] at he
  rcases he with ⟨kv, _, rfl⟩ | ⟨kv, _, rfl⟩ <;> rfl

/-- Witness for `only_new_suppresses_removed`: a concrete diff in onlyNew
mode where the reference has an anomaly the candidate lost. -/
theorem only_new_suppresses_removed_witness :
    (("a", ({ added := ⟨["https://x/#b"], [], []⟩, removed := emptyAnomalies } : DiffEntry))
        : String × DiffEntry)
      ∈ diffStudies
        [("a", ⟨"a", "A", "r", "u", ["https://x/#gone"], [], []⟩)]
        [("a", ⟨"a", "A", "r", "u", ["https://x/#b"], [], []⟩)] true
    ∧ (("a", ({ added := ⟨["https://x/#b"], [], []⟩, removed := emptyAnomalies } : DiffEntry))
        : String × DiffEntry).2.removed = emptyAnomalies :=
  ⟨by decide,
   only_new_suppresses_removed
     [("a", ⟨"a", "A", "r", "u", ["https://x/#gone"], [], []⟩)]
     [("a", ⟨"a", "A", "r", "u", ["https://x/#b"], [], []⟩)]
     _ (by decide)⟩

/-! ## Claim C9: only the first two specs are considered -/

/-- C9: the issue-filing pass is a function of the first two entries of the
study result (in key order): its effects on the full result equal its effects
on `results.take 2`, and every effect it performs arises from processing one
of those first two entries — nothing is written or committed for any spec
beyond the second. -/
theorem issue_pass_first_two (env : FileEnv) (br : String)
    (results : List (String × SpecStudy)) :
    fileIssues env br results = fileIssues env br (results.take 2)
    ∧ ∀ e ∈ fileIssues env br results,
        ∃ kv ∈ results.take 2, e ∈ processSpec env br kv.2 := by
  constructor
  · unfold fileIssues
    rw [List.take_take]
    norm_num
  · intro e he
    unfold fileIssues at he
    simp only [List.mem_flatten, List.mem_map] at he
    rcases he with ⟨l, ⟨kv, hkv, rfl⟩, hel⟩
    exact ⟨kv, hkv, hel⟩

/-- Witness for `issue_pass_first_two`: with three spec entries only the
first two are visited; a concrete effect of the pass traces back to one of
them. -/
theorem issue_pass_first_two_witness :
    fileIssues ⟨fun _ => none⟩ "main"
        [("u1", ⟨"s1", "T1", "R1", "C1", ["https://x/#a"], [], []⟩),
         ("u2", ⟨"s2", "T2", "R2", "C2", [], [], []⟩),
         ("u3", ⟨"s3", "T3", "R3", "C3", ["https://x/#c"], [], []⟩)]
      = fileIssues ⟨fun _ => none⟩ "main"
        ([("u1", ⟨"s1", "T1", "R1", "C1", ["https://x/#a"], [], []⟩),
          ("u2", ⟨"s2", "T2", "R2", "C2", [], [], []⟩),
          ("u3", ⟨"s3", "T3", "R3", "C3", ["https://x/#c"], [], []⟩)].take 2)
    ∧ ∃ kv ∈ [("u1", (⟨"s1", "T1", "R1", "C1", ["https://x/#a"], [], []⟩ : SpecStudy)),
         ("u2", ⟨"s2", "T2", "R2", "C2", [], [], []⟩),
         ("u3", ⟨"s3", "T3", "R3", "C3", ["https://x/#c"], [], []⟩)].take 2,
        GitEffect.checkoutNewBranch "s1-brokenlinks" ∈ processSpec ⟨fun _ => none⟩ "main" kv.2 :=
  ⟨(issue_pass_first_two _ _ _).1,
   (issue_pass_first_two ⟨fun _ => none⟩ "main" _).2
     (GitEffect.checkoutNewBranch "s1-brokenlinks") (by decide)⟩

/-! ## Claim C10: frame effects of the per-spec issue filing -/

/-- C10: for a spec whose filtered broken-link list is empty, or whose issue
file (`issues/<shortname>-brokenlinks.md`) already exists, the issue filer
performs no effect at all: no file write, no branch creation, no commit. -/
theorem issue_filing_frame (env : FileEnv) (br : String) (r : SpecStudy)
    (h : brokenLinksOf r = []
      ∨ (env.stat ("issues/" ++ (r.shortname ++ "-brokenlinks") ++ ".md")).isSome = true) :
    processSpec env br r = [] := by
  rcases h with h | h
  · unfold processSpec
    simp [h]
  · rcases Option.isSome_iff_exists.mp h with ⟨b, hb⟩
    unfold processSpec
    simp only [hb]
    split
    · rfl
    · rfl

/-- Witness for `issue_filing_frame`: a spec with no (post-filter) broken
links produces no effects; so does one whose issue file already exists. -/
theorem issue_filing_frame_witness :
    processSpec ⟨fun _ => none⟩ "main"
      ⟨"s0", "T0", "R0", "C0", ["https://www.w3.org/TR/only/#x"], [], []⟩ = []
    ∧ processSpec ⟨fun _ => some true⟩ "main"
      ⟨"s1", "T1", "R1", "C1", ["https://x/#a"], [], []⟩ = [] :=
  ⟨issue_filing_frame _ _ _ (Or.inl (by decide)),
   issue_filing_frame _ _ _ (Or.inr (by decide))⟩

/-! ## Claim C7: the per-spec study fields feed the issue report -/

theorem joinLines_mem_infix {l : List String} {x : String} (hx : x ∈ l) :
    x.data <:+: (joinLines l).data := by
  induction l with
  | nil => cases hx
  | cons s t ih =>
    cases t with
    | nil =>
      rcases List.mem_singleton.mp hx with rfl
      exact ⟨[], [], by simp [joinLines]⟩
    | cons s2 t2 =>
      rcases List.mem_cons.mp hx with rfl | hx2
      · refine ⟨[], ("\n" ++ joinLines (s2 :: t2)).data, ?_⟩
        simp [joinLines, String.data_append, List.append_assoc]
      · rcases ih hx2 with ⟨p, q, hq⟩
        refine ⟨(s ++ "\n").data ++ p, q, ?_⟩
        simp only [joinLines, String.data_append, List.append_assoc]
        rw [← hq]
        simp [List.append_assoc]

theorem infix_data_append_mid (a b j : String) {mid : List Char}
    (h : mid <:+: j.data) : mid <:+: ((a ++ j) ++ b).data := by
  rcases h with ⟨p, q, hq⟩
  refine ⟨a.data ++ p, q ++ b.data, ?_⟩
  simp only [String.data_append, List.append_assoc]
  rw [← hq]
  simp [List.append_assoc]

/-- C7: the issue report is a function of exactly the per-spec fields the
spec promises (`title`, `repo`, `crawled` and the broken-links array): two
spec entries agreeing on those fields render identically, and every link of
the list appears literally (as a `* [ ] <url>` line) in the rendered
report — no further lookup is needed. -/
theorem issue_report_reads_fields (r r2 : SpecStudy) (links : List String)
    (u : String) (ht : r.title = r2.title) (hr : r.repo = r2.repo)
    (hc : r.crawled = r2.crawled) (hu : u ∈ links) :
    issueReport r links = issueReport r2 links
    ∧ ("* [ ] " ++ u).data <:+: (issueReport r links).data := by
  constructor
  · unfold issueReport
    rw [ht, hr, hc]
  · have hmem : ("* [ ] " ++ u) ∈ links.map (fun link => "* [ ] " ++ link) :=
      List.mem_map.mpr ⟨u, hu, rfl⟩
    have h := joinLines_mem_infix hmem
    unfold issueReport
    exact infix_data_append_mid _ _ _ h

/-- Witness for `issue_report_reads_fields`: two spec entries differing only
in fields the report does not read render the same issue body, and a
concrete link appears literally in it. -/
theorem issue_report_reads_fields_witness :
    issueReport ⟨"dom", "DOM Standard", "https://github.com/whatwg/dom",
        "https://dom.spec.whatwg.org/", ["https://a/#x"], [], []⟩
        ["https://a/#x", "https://b/#y"]
      = issueReport ⟨"dom-other", "DOM Standard", "https://github.com/whatwg/dom",
        "https://dom.spec.whatwg.org/", [], ["stale"], ["dup"]⟩
        ["https://a/#x", "https://b/#y"]
    ∧ ("* [ ] " ++ "https://b/#y").data
      <:+: (issueReport ⟨"dom", "DOM Standard", "https://github.com/whatwg/dom",
        "https://dom.spec.whatwg.org/", ["https://a/#x"], [], []⟩
        ["https://a/#x", "https://b/#y"]).data :=
  issue_report_reads_fields _ _ _ _ rfl rfl rfl (by decide)


end Strudy
